import Mathlib

/-!
Verification of the viewport virtualization / frame-batched backfill engine of
`src/modules/chat-render-optimizer.js` (repository Lianues/cocktail).

The development shallowly embeds the pieces of that module the claims talk
about:

* `clampInt` — the numeric-configuration clamp (source lines 57-64), over an
  explicit model `NumVal` of the result of JavaScript `Number(value)`
  (finite rational, `NaN`, `±Infinity`).
* `frameLoop` / `runChunksF` / `runChunks` — `insertMessagesInRafChunks`
  (source lines 340-383): the inner per-frame `while` loop and the outer
  requestAnimationFrame-driven recursion.  An entry id for which the host's
  `ctx.addOneMessage` throws is modelled by the predicate `bad`; the thrown
  exception escapes the rAF callback, so the promise never resolves — the
  `RunOutcome.stuck` constructor records that wedged outcome.
* `loadMoreResult` / `loadMoreChunkedJob` — `loadMoreChunked`
  (source lines 385-456): batch-size clamping, the missing-container abort,
  the `overflow-anchor` / `auto_scroll_chat_to_bottom` scoped suppression
  with its `finally`-block restoration, and the `#show_more_messages`
  removal on exhaustion.
* `GateState` / `GateEvent` / `gateStep` / `runGate` — the trigger gate:
  the module-level flags `_isLoadingMore`, `_lastAutoLoadTs`,
  `_autoLoadMoreEnabled`, `_autoLoadThresholdPx`, `_autoLoadCooldownMs`,
  `_touchStartY`, together with the three trigger sources
  (`installLoadMoreOverride` explicit click, `installAutoLoadScrollTrigger`'s
  `maybeTrigger`, `installTopIntentLoadMore`'s wheel/touch `canTrigger`) and
  the completion epilogue of `loadMoreChunked`.  All handlers run on a
  single-threaded host, so each is one atomic step of the machine.
-/

namespace Cocktail

/-! ## Numeric configuration clamping (`clampInt`, lines 57-64) -/

/-- The result of JavaScript `Number(value)`: `NaN` (any non-numeric input,
including non-numeric strings), `±Infinity`, or a finite value, modelled as a
rational.  `Number.isFinite` is false exactly on the first three. -/
inductive NumVal where
  | nan
  | posInf
  | negInf
  | fin (q : ℚ)

/-- JavaScript `Math.trunc`: rounding toward zero. -/
def ratTrunc (q : ℚ) : Int :=
  if 0 ≤ q then ⌊q⌋ else ⌈q⌉

/-- Source lines 57-64:
`const n = Number(value); if (!Number.isFinite(n)) return fallback;
const i = Math.trunc(n); if (i < min) return min; if (i > max) return max;
return i;` -/
def clampInt (v : NumVal) (lo hi fallback : Int) : Int :=
  match v with
  | .nan => fallback
  | .posInf => fallback
  | .negInf => fallback
  | .fin q =>
    let i := ratTrunc q
    if i < lo then lo
    else if hi < i then hi
    else i

/-- The raw (pre-normalization) numeric settings fields, as they arrive from
the settings store or the settings UI. -/
structure RawNums where
  initialRenderCount : NumVal
  loadMoreBatchSize : NumVal
  autoLoadThresholdPx : NumVal
  autoLoadCooldownMs : NumVal

/-- The normalized numeric settings fields. -/
structure CfgNums where
  initialRenderCount : Int
  loadMoreBatchSize : Int
  autoLoadThresholdPx : Int
  autoLoadCooldownMs : Int
deriving DecidableEq

/-- The numeric part of `ensureExtensionSettings` (source lines 80-88):
each field is independently clamped to its documented range, with the
`DEFAULT_SETTINGS` value as the non-finite fallback
(`initialRenderCount` 20 in [1,1000], `loadMoreBatchSize` 20 in [1,500],
`autoLoadThresholdPx` 400 in [0,10000], `autoLoadCooldownMs` 250 in
[0,10000]). -/
def normalizeNums (r : RawNums) : CfgNums :=
  { initialRenderCount := clampInt r.initialRenderCount 1 1000 20
    loadMoreBatchSize := clampInt r.loadMoreBatchSize 1 500 20
    autoLoadThresholdPx := clampInt r.autoLoadThresholdPx 0 10000 400
    autoLoadCooldownMs := clampInt r.autoLoadCooldownMs 0 10000 250 }

/-! ## The frame-batched insertion loop (`insertMessagesInRafChunks`) -/

/-- The per-frame insertion budget: `insertMessagesInRafChunks` is always
called with `perFrame = 3` (source line 421), and 3 is also the default of
the `perFrame` parameter (line 340). -/
def perFrameCount : Nat := 3

/-- `bad id = true` models "the host's `ctx.addOneMessage` throws for the
entry with this id" (source line 353 has no try/catch around the call). -/
def noFail : Nat → Bool := fun _ => false

/-- Result of the inner `while` loop of one frame step (source lines
349-364): the ids inserted this frame in insertion order, the final values
of the `messageId` and `remaining` loop variables, and — if the host's
insertion primitive threw — the id at which it threw (every later iteration
of the loop is then skipped, because the exception propagates out of the
`step` callback). -/
structure FrameRes where
  ids : List Nat
  messageId : Nat
  remaining : Nat
  failed : Option Nat
deriving DecidableEq

/-- The inner loop `while (messageId > 0 && remaining > 0 && processed <
perFrame)` of one frame step; `budget` is `perFrame - processed`.  Each
iteration inserts entry `messageId - 1` and decrements both counters. -/
def frameLoop (bad : Nat → Bool) (messageId remaining budget : Nat) : FrameRes :=
  match budget with
  | 0 => ⟨[], messageId, remaining, none⟩
  | b + 1 =>
    if messageId = 0 ∨ remaining = 0 then ⟨[], messageId, remaining, none⟩
    else if bad (messageId - 1) then ⟨[], messageId, remaining, some (messageId - 1)⟩
    else
      let r := frameLoop bad (messageId - 1) (remaining - 1) b
      ⟨(messageId - 1) :: r.ids, r.messageId, r.remaining, r.failed⟩

/-- Outcome of the whole chunked insertion:
* `done frames finalMessageId insertedCount` — the promise resolved
  (source line 374) with the given per-frame insertion lists;
* `stuck frames stepIds failedId` — `ctx.addOneMessage` threw for
  `failedId`; `stepIds` are the ids the throwing frame step inserted before
  the throw.  The exception escapes the requestAnimationFrame callback, so
  the promise never resolves and the surrounding `loadMoreChunked` never
  resumes;
* `fuelOut frames` — artefact of the explicit recursion bound; unreachable
  whenever `fuel > messageId`, because every scheduled frame step strictly
  decreases `messageId` (with `perFrameCount = 3 ≥ 1`) or throws. -/
inductive RunOutcome where
  | done (frames : List (List Nat)) (finalMessageId : Nat) (insertedCount : Nat)
  | stuck (frames : List (List Nat)) (stepIds : List Nat) (failedId : Nat)
  | fuelOut (frames : List (List Nat))
deriving DecidableEq

/-- All ids actually handed to `ctx.addOneMessage` successfully, in
insertion order. -/
def RunOutcome.allIds : RunOutcome → List Nat
  | .done fs _ _ => fs.flatten
  | .stuck fs sIds _ => fs.flatten ++ sIds
  | .fuelOut fs => fs.flatten

/-- Whether the insertion promise resolved. -/
def RunOutcome.isDone : RunOutcome → Bool
  | .done _ _ _ => true
  | _ => false

/-- The per-frame insertion lists of completed frame steps. -/
def RunOutcome.frames : RunOutcome → List (List Nat)
  | .done fs _ _ => fs
  | .stuck fs _ _ => fs
  | .fuelOut fs => fs

/-- Whether a list of ids is strictly decreasing. -/
def strictlyDescending : List Nat → Bool
  | [] => true
  | [_] => true
  | a :: b :: t => decide (b < a) && strictlyDescending (b :: t)

/-- The outer recursion of `insertMessagesInRafChunks` (source lines
346-381): run one frame step; if an insertion threw, the job is wedged;
otherwise resolve when `messageId <= 0 || remaining <= 0`, else schedule the
next frame step.  `fuel` bounds the number of frame steps; `messageId + 1`
always suffices. -/
def runChunksF (bad : Nat → Bool) (messageId remaining fuel : Nat) : RunOutcome :=
  match fuel with
  | 0 => .fuelOut []
  | f + 1 =>
    let r := frameLoop bad messageId remaining perFrameCount
    match r.failed with
    | some fid => .stuck [] r.ids fid
    | none =>
      if r.messageId = 0 ∨ r.remaining = 0 then
        .done [r.ids] r.messageId r.ids.length
      else
        match runChunksF bad r.messageId r.remaining f with
        | .done fs fin n => .done (r.ids :: fs) fin (r.ids.length + n)
        | .stuck fs sIds fid => .stuck (r.ids :: fs) sIds fid
        | .fuelOut fs => .fuelOut (r.ids :: fs)

/-- `insertMessagesInRafChunks ctx messageIdStart totalToInsert 3 chatEl
true`, with enough fuel for every reachable frame step. -/
def runChunks (bad : Nat → Bool) (messageIdStart totalToInsert : Nat) : RunOutcome :=
  runChunksF bad messageIdStart totalToInsert (messageIdStart + 1)

/-- `clampInt(_loadMoreBatchSize, 1, 500, 20)` (source line 420) for an
already-normalized (natural number) stored batch size. -/
def batchEff (n : Nat) : Nat := min 500 (max 1 n)

/-- The insertion part of `loadMoreChunked` (source lines 413-430) for a
well-formed window: `messageId` is the `mesid` of the first displayed
message, i.e. the window's lower bound (`cursor`); the batch size is the
clamped stored setting; afterwards `finalMessageId <= 0` removes the
`#show_more_messages` affordance.  Returns the insertion outcome and
whether the affordance-removal branch ran. -/
def loadMoreResult (cursor batchSetting : Nat) : RunOutcome × Bool :=
  let o := runChunks noFail cursor (batchEff batchSetting)
  (o, match o with
      | .done _ fin _ => decide (fin = 0)
      | _ => false)

/-! ## The whole `loadMoreChunked` job (abort and restoration paths) -/

/-- The host state `loadMoreChunked` reads and writes:
`containerFound` — whether `$('#chat')` yields an `HTMLElement`;
`overflowAnchor` — `chatEl.style.overflowAnchor`;
`autoScroll` — `power_user.auto_scroll_chat_to_bottom`;
`cursor` — the window's lower bound (first displayed `mesid`);
`showMore` — whether the `#show_more_messages` affordance is present. -/
structure HostState where
  containerFound : Bool
  overflowAnchor : String
  autoScroll : Bool
  cursor : Nat
  showMore : Bool
deriving DecidableEq

/-- Observable result of one `loadMoreChunked` invocation.  `ended` is true
when the `finally` epilogue ran (normal completion or the missing-container
abort); it is false exactly when an insertion threw inside a
requestAnimationFrame callback, which leaves the promise pending forever. -/
structure JobRun where
  final : HostState
  insertedIds : List Nat
  ended : Bool
  removedAffordance : Bool
deriving DecidableEq

/-- `loadMoreChunked` (source lines 385-456), after its busy-guard:
capture `prevAutoScroll` and force `auto_scroll_chat_to_bottom = false`
(lines 391-402); abort via `return` if the `#chat` container cannot be
located (lines 405-408) — the `finally` block then restores `autoScroll`
and `overflowAnchor` was never touched; otherwise capture and disable
`overflow-anchor` (lines 409-411), run the chunked insertion (line 421),
remove the affordance when `finalMessageId <= 0` (lines 428-430), and
restore both captured values in `finally` (lines 446-453). -/
def loadMoreChunkedJob (bad : Nat → Bool) (hs : HostState) (batchSetting : Nat) : JobRun :=
  let prevAutoScroll := hs.autoScroll
  let hs1 : HostState := { hs with autoScroll := false }
  if hs1.containerFound = false then
    { final := { hs1 with autoScroll := prevAutoScroll }
      insertedIds := []
      ended := true
      removedAffordance := false }
  else
    let prevOverflowAnchor := hs1.overflowAnchor
    let hs2 : HostState := { hs1 with overflowAnchor := "none" }
    match runChunks bad hs2.cursor (batchEff batchSetting) with
    | .done fs fin _ =>
      let hs3 : HostState :=
        { hs2 with
            cursor := fin
            showMore := if fin = 0 then false else hs2.showMore }
      { final := { hs3 with overflowAnchor := prevOverflowAnchor, autoScroll := prevAutoScroll }
        insertedIds := fs.flatten
        ended := true
        removedAffordance := decide (fin = 0) }
    | .stuck fs sIds _ =>
      -- the exception never reaches the `finally` block: nothing is restored
      { final := hs2, insertedIds := fs.flatten ++ sIds, ended := false, removedAffordance := false }
    | .fuelOut fs =>
      { final := hs2, insertedIds := fs.flatten, ended := false, removedAffordance := false }

/-! ## The trigger gate -/

/-- The module-level mutable state shared by the three trigger sources,
plus two ghost observation counters (`running` counts `loadMoreChunked`
invocations currently past the busy-guard, `starts` counts job starts,
`removals` counts executions of the affordance-removal statement). -/
structure GateState where
  isLoadingMore : Bool
  lastAutoLoadTs : Nat
  autoLoadMoreEnabled : Bool
  autoLoadThresholdPx : Nat
  autoLoadCooldownMs : Nat
  loadMoreBatchSize : Nat
  cursor : Nat
  showMore : Bool
  touchStartY : Option Int
  running : Nat
  starts : Nat
  removals : Nat
deriving DecidableEq

/-- `_autoLoadCooldownMs > 0 && (now - _lastAutoLoadTs) < _autoLoadCooldownMs`
(source lines 254 and 290). -/
def cooldownBlocked (s : GateState) (now : Nat) : Bool :=
  decide (0 < s.autoLoadCooldownMs) && decide (now - s.lastAutoLoadTs < s.autoLoadCooldownMs)

/-- A `loadMoreChunked` invocation passing the busy-guard: sets the busy
flag and bumps the ghost counters. -/
def startJob (s : GateState) : GateState :=
  { s with isLoadingMore := true, running := s.running + 1, starts := s.starts + 1 }

/-- The entry guard of `loadMoreChunked` (source lines 386-390):
`if (_isLoadingMore) return;` then `_isLoadingMore = true`.  (The model
assumes `ctx.chat`, `ctx.addOneMessage` and jQuery are present, as they are
on a live host.) -/
def loadMoreChunkedEnter (s : GateState) : GateState :=
  if s.isLoadingMore then s else startJob s

/-- `maybeTrigger` of `installAutoLoadScrollTrigger` (source lines 245-257),
run at most once per animation frame on scroll.  `scrollTop` is the
container's scroll offset observed at that tick. -/
def maybeTrigger (s : GateState) (now scrollTop : Nat) : GateState :=
  if !s.autoLoadMoreEnabled then s
  else if s.isLoadingMore then s
  else if !s.showMore then s
  else if s.autoLoadThresholdPx < scrollTop then s
  else if cooldownBlocked s now then s
  else loadMoreChunkedEnter { s with lastAutoLoadTs := now }

/-- `canTrigger` of `installTopIntentLoadMore` (source lines 285-293):
returns the (possibly timestamp-updated) state and the decision.  Every
rejecting branch leaves the state untouched; only acceptance writes
`_lastAutoLoadTs = now`. -/
def canTrigger (s : GateState) (now scrollTop : Nat) : GateState × Bool :=
  if s.isLoadingMore then (s, false)
  else if !s.showMore then (s, false)
  else if 0 < scrollTop then (s, false)
  else if cooldownBlocked s now then (s, false)
  else ({ s with lastAutoLoadTs := now }, true)

/-- `onWheel` (source lines 296-302): upward intent (`deltaY < 0`) while at
the top, gated by `canTrigger`. -/
def onWheel (s : GateState) (now scrollTop : Nat) (deltaY : Int) : GateState :=
  if 0 ≤ deltaY then s
  else
    let c := canTrigger s now scrollTop
    if c.2 then loadMoreChunkedEnter c.1 else c.1

/-- `onTouchMove` (source lines 311-325): a pull of at least 18 logical px
past the recorded touch start, gated by `canTrigger`; on success the
reference point is reset so one continued pull fires once. -/
def onTouchMove (s : GateState) (now scrollTop : Nat) (y : Int) : GateState :=
  match s.touchStartY with
  | none => s
  | some y0 =>
    if y - y0 < 18 then s
    else
      let c := canTrigger s now scrollTop
      if c.2 then loadMoreChunkedEnter { c.1 with touchStartY := some y } else c.1

/-- The explicit-control source (source lines 219-228): the delegated
`mouseup/touchend` handler on `#show_more_messages` calls `loadMoreChunked`
directly — no cooldown check and no timestamp update.  The handler can only
fire while the affordance element exists. -/
def onExplicit (s : GateState) : GateState :=
  if s.showMore then loadMoreChunkedEnter s else s

/-- A running job's final frame step plus the epilogue of `loadMoreChunked`
(source lines 421-455): the window's lower bound becomes
`finalMessageId = cursor - min batch cursor` (theorem
`runChunks_noFail_spec` below proves this equals the `runChunks` outcome
for a throw-free run), the affordance is removed when it reaches 0, and the
`finally` block clears the busy flag. -/
def onJobEnd (s : GateState) : GateState :=
  if s.isLoadingMore then
    let b := batchEff s.loadMoreBatchSize
    let fin := s.cursor - min b s.cursor
    let s' : GateState :=
      { s with cursor := fin, isLoadingMore := false, running := s.running - 1 }
    if fin = 0 then { s' with showMore := false, removals := s.removals + 1 } else s'
  else s

/-- External stimuli of the gate.  `now` is `Date.now()` at the handler
run; `scrollTop` is the container's scroll offset the handler observes. -/
inductive GateEvent where
  | explicitClick (now : Nat)
  | scrollProx (now scrollTop : Nat)
  | wheelUp (now scrollTop : Nat) (deltaY : Int)
  | touchStart (y : Int)
  | touchMove (now scrollTop : Nat) (y : Int)
  | touchEnd
  | jobEnd

/-- One atomic handler run on the single-threaded host. -/
def gateStep (s : GateState) : GateEvent → GateState
  | .explicitClick _ => onExplicit s
  | .scrollProx now scrollTop => maybeTrigger s now scrollTop
  | .wheelUp now scrollTop deltaY => onWheel s now scrollTop deltaY
  | .touchStart y => { s with touchStartY := some y }
  | .touchMove now scrollTop y => onTouchMove s now scrollTop y
  | .touchEnd => { s with touchStartY := none }
  | .jobEnd => onJobEnd s

/-- A whole event sequence. -/
def runGate (s : GateState) : List GateEvent → GateState
  | [] => s
  | e :: es => runGate (gateStep s e) es

/-- The events that are trigger attempts (as opposed to touch bookkeeping
or job completion). -/
def IsTrigger : GateEvent → Prop
  | .explicitClick _ => True
  | .scrollProx _ _ => True
  | .wheelUp _ _ _ => True
  | .touchMove _ _ _ => True
  | _ => False

/-- The trigger events that are not the explicit-control source: scroll
proximity, wheel boundary gesture, touch boundary gesture. -/
def NonExplicitTrigger : GateEvent → Prop
  | .scrollProx _ _ => True
  | .wheelUp _ _ _ => True
  | .touchMove _ _ _ => True
  | _ => False

/-- The `Date.now()` value a handler run observes. -/
def eventTime : GateEvent → Nat
  | .explicitClick now => now
  | .scrollProx now _ => now
  | .wheelUp now _ _ => now
  | .touchMove now _ _ => now
  | _ => 0

/-- A well-formed initial state: no job underway, no removal performed yet,
and the `#show_more_messages` affordance present exactly when older entries
remain (the host renders it only for a truncated chat). -/
def WfInit (s : GateState) : Prop :=
  s.isLoadingMore = false ∧ s.running = 0 ∧ s.removals = 0 ∧
  s.showMore = decide (0 < s.cursor)

/-- The reachable-state invariant of the gate. -/
def GateInv (s : GateState) : Prop :=
  s.running ≤ 1 ∧
  (s.isLoadingMore = true ↔ s.running = 1) ∧
  (s.showMore = true → s.removals = 0) ∧
  (s.isLoadingMore = true → s.showMore = true) ∧
  (s.showMore = true → 0 < s.cursor) ∧
  s.removals ≤ 1

/-! ## Theorems -/

/-- Helper: whenever the fallback lies in the documented range, so does the
clamped value, for every possible `Number(value)` result. -/
theorem clampInt_mem (v : NumVal) (lo hi d : Int) (h1 : lo ≤ d) (h2 : d ≤ hi) :
    lo ≤ clampInt v lo hi d ∧ clampInt v lo hi d ≤ hi := by
  cases v <;> simp only [clampInt] <;> [skip; skip; skip; split_ifs] <;> omega

/-- C9 counterexample: `Infinity` is an out-of-range value (it exceeds every
range maximum), yet `clampInt` — hence `ensureExtensionSettings` — maps it to
the built-in default `20`, not to the nearest valid bound `1000` of
`initialRenderCount`'s documented range. -/
theorem c9_nonfinite_counterexample :
    (normalizeNums ⟨.posInf, .fin 600, .fin 0, .fin 0⟩).initialRenderCount = 20
    ∧ (20 : Int) < 1000 := by
  exact ⟨rfl, by decide⟩

/-- C9 (amended): for *finite* inputs every configuration setter clamps to
the nearest valid bound — `clampInt (.fin q)` is exactly
`max lo (min hi (trunc q))` — while non-finite inputs (`NaN`, `±Infinity`)
yield the built-in default; no input is ever rejected, and the stored value
of each of the four numeric settings always lies within its documented
range. -/
theorem c9_clamping_amended (lo hi d : Int) (q : ℚ) (v : NumVal)
    (h1 : lo ≤ d) (h2 : d ≤ hi) :
    clampInt (.fin q) lo hi d = max lo (min hi (ratTrunc q))
    ∧ (lo ≤ clampInt v lo hi d ∧ clampInt v lo hi d ≤ hi)
    ∧ clampInt .nan lo hi d = d
    ∧ clampInt .posInf lo hi d = d
    ∧ clampInt .negInf lo hi d = d
    ∧ (∀ r : RawNums,
        1 ≤ (normalizeNums r).initialRenderCount
        ∧ (normalizeNums r).initialRenderCount ≤ 1000
        ∧ 1 ≤ (normalizeNums r).loadMoreBatchSize
        ∧ (normalizeNums r).loadMoreBatchSize ≤ 500
        ∧ 0 ≤ (normalizeNums r).autoLoadThresholdPx
        ∧ (normalizeNums r).autoLoadThresholdPx ≤ 10000
        ∧ 0 ≤ (normalizeNums r).autoLoadCooldownMs
        ∧ (normalizeNums r).autoLoadCooldownMs ≤ 10000) := by
  refine ⟨?_, clampInt_mem v lo hi d h1 h2, rfl, rfl, rfl, ?_⟩
  · simp only [clampInt]
    split_ifs <;> omega
  · intro r
    obtain ⟨a1, a2⟩ := clampInt_mem r.initialRenderCount 1 1000 20 (by decide) (by decide)
    obtain ⟨b1, b2⟩ := clampInt_mem r.loadMoreBatchSize 1 500 20 (by decide) (by decide)
    obtain ⟨d1, d2⟩ := clampInt_mem r.autoLoadThresholdPx 0 10000 400 (by decide) (by decide)
    obtain ⟨e1, e2⟩ := clampInt_mem r.autoLoadCooldownMs 0 10000 250 (by decide) (by decide)
    exact ⟨a1, a2, b1, b2, d1, d2, e1, e2⟩

/-- C9 witness. -/
theorem c9_clamping_amended_witness :
    clampInt (.fin ((37 : ℚ) / 2)) 0 10 5 = max 0 (min 10 (ratTrunc ((37 : ℚ) / 2))) :=
  (c9_clamping_amended 0 10 5 ((37 : ℚ) / 2) .nan (by decide) (by decide)).1

/-- C10: a non-finite `Number(value)` (`NaN` — which is what a non-numeric
string coerces to — or `±Infinity`) makes every numeric configuration field
fall back to its built-in default (strictly inside the range, so not a range
bound), while finite values are truncated toward zero and only then clamped:
`-3.5` becomes `-3` (toward zero, not the floor `-4`), `1000.5` exceeds the
`initialRenderCount` range only after truncation to `1000` and is kept,
`2001/2 = 1000.5` with range `[1,1000]` gives the bound `1000`, and `-0.5`
truncates to `0` inside `[0,10000]`. -/
theorem c10_nonfinite_defaults :
    (∀ lo hi d : Int,
      clampInt .nan lo hi d = d
      ∧ clampInt .posInf lo hi d = d
      ∧ clampInt .negInf lo hi d = d)
    ∧ normalizeNums ⟨.nan, .nan, .nan, .nan⟩ = ⟨20, 20, 400, 250⟩
    ∧ normalizeNums ⟨.posInf, .posInf, .posInf, .posInf⟩ = ⟨20, 20, 400, 250⟩
    ∧ normalizeNums ⟨.negInf, .negInf, .negInf, .negInf⟩ = ⟨20, 20, 400, 250⟩
    ∧ (1 : Int) < 20 ∧ (20 : Int) < 1000 ∧ (20 : Int) < 500
    ∧ (0 : Int) < 400 ∧ (400 : Int) < 10000
    ∧ (0 : Int) < 250 ∧ (250 : Int) < 10000
    ∧ clampInt (.fin (-(7 : ℚ) / 2)) (-10) 10 0 = -3
    ∧ clampInt (.fin ((7 : ℚ) / 2)) (-10) 10 0 = 3
    ∧ clampInt (.fin ((2001 : ℚ) / 2)) 1 1000 20 = 1000
    ∧ clampInt (.fin (-(1 : ℚ) / 2)) 0 10000 400 = 0 := by
  refine ⟨fun lo hi d => ⟨rfl, rfl, rfl⟩, rfl, rfl, rfl,
    by decide, by decide, by decide, by decide, by decide, by decide, by decide,
    ?_, ?_, ?_, ?_⟩
  · norm_num [clampInt, ratTrunc, Int.ceil_neg]
  · norm_num [clampInt, ratTrunc]
  · norm_num [clampInt, ratTrunc]
  · norm_num [clampInt, ratTrunc, Int.ceil_neg]

/-- C2 (Scenario A): starting from a window whose lower bound is 80 (the
last 20 entries of a 100-entry log) with batch size 20, one explicit trigger
inserts exactly the ids 79 down to 60, in strictly decreasing order, at most
3 per frame step, across `ceil(20/3) = 7` frame steps, and the final
`messageId` — the window's new lower bound — is 60 (so the affordance is not
removed). -/
theorem c2_scenario_a :
    runChunks noFail 80 20 =
      .done [[79, 78, 77], [76, 75, 74], [73, 72, 71], [70, 69, 68],
             [67, 66, 65], [64, 63, 62], [61, 60]] 60 20
    ∧ (runChunks noFail 80 20).allIds = (List.range 20).map (fun i => 79 - i)
    ∧ strictlyDescending (runChunks noFail 80 20).allIds = true
    ∧ (runChunks noFail 80 20).frames.length = 7
    ∧ ((runChunks noFail 80 20).frames.all (fun f => f.length ≤ 3)) = true
    ∧ ((runChunks noFail 80 20).allIds.all (fun i => i < 100)) = true
    ∧ loadMoreResult 80 20 = (runChunks noFail 80 20, false) := by
  decide

/-- C3: `insertMessagesInRafChunks` has no try/catch around
`ctx.addOneMessage` (source line 353).  When the insertion primitive throws
for id 45 mid-batch (window lower bound 47, batch ≥ 3), id 46 is inserted,
but the exception escapes the `requestAnimationFrame` callback: id 44 is
*not* inserted, the promise never resolves, and `loadMoreChunked` never
reaches its epilogue (no cursor update, `_isLoadingMore` never cleared) —
contradicting the containment the spec states. -/
theorem c3_entry_throw_wedges :
    runChunks (fun n => n == 45) 47 20 = .stuck [] [46] 45
    ∧ (runChunks (fun n => n == 45) 47 20).allIds = [46]
    ∧ ((runChunks (fun n => n == 45) 47 20).allIds.contains 44) = false
    ∧ (runChunks (fun n => n == 45) 47 20).isDone = false := by
  decide

/-- C4 (Scenario B): a job started at window lower bound 2 with batch size
20 inserts exactly ids 1 and 0 — the count is clamped to the remaining
entries, `min (batchEff 20) 2 = 2` — the final `messageId` (cursor) is 0,
and the `#show_more_messages` affordance-removal branch runs. -/
theorem c4_scenario_b :
    loadMoreResult 2 20 = (.done [[1, 0]] 0 2, true)
    ∧ (loadMoreResult 2 20).1.allIds = [1, 0]
    ∧ (loadMoreResult 2 20).1.allIds.length = min (batchEff 20) 2 := by
  decide

/-- Helper: for a throw-free run, one frame step inserts exactly
`min budget (min messageId remaining)` entries and decrements both loop
variables by that amount. -/
theorem frameLoop_noFail_spec (b m r : Nat) :
    (frameLoop noFail m r b).failed = none
    ∧ (frameLoop noFail m r b).messageId = m - min b (min m r)
    ∧ (frameLoop noFail m r b).remaining = r - min b (min m r)
    ∧ (frameLoop noFail m r b).ids.length = min b (min m r) := by
  induction b generalizing m r with
  | zero => simp [frameLoop]
  | succ b ih =>
    by_cases h : m = 0 ∨ r = 0
    · have hz : min (b + 1) (min m r) = 0 := by omega
      simp [frameLoop, h, hz]
    · have h' : ¬(m = 0 ∨ r = 0) := h
      push_neg at h
      obtain ⟨ih1, ih2, ih3, ih4⟩ := ih (m - 1) (r - 1)
      refine ⟨?_, ?_, ?_, ?_⟩ <;>
        simp [frameLoop, noFail, if_neg h', ih1, ih2, ih3, ih4] <;> omega

/-- Helper: with no throwing entry and enough fuel, the chunked insertion
always resolves, inserting `min messageId remaining` entries and ending at
`messageId - min messageId remaining`. -/
theorem runChunksF_noFail_done (fuel : Nat) : ∀ m r, m < fuel →
    ∃ fs, runChunksF noFail m r fuel = .done fs (m - min m r) (min m r) := by
  induction fuel with
  | zero => intro m r hm; omega
  | succ f ih =>
    intro m r hm
    obtain ⟨h1, h2, h3, h4⟩ := frameLoop_noFail_spec perFrameCount m r
    rcases hsplit : frameLoop noFail m r perFrameCount with ⟨ids, mid, rem, fl⟩
    rw [hsplit] at h1 h2 h3 h4
    dsimp only at h1 h2 h3 h4
    subst h1
    have hp : perFrameCount = 3 := rfl
    rw [hp] at h2 h3 h4
    by_cases h0 : mid = 0 ∨ rem = 0
    · refine ⟨[ids], ?_⟩
      simp only [runChunksF, hsplit]
      rw [if_pos h0]
      simp only [RunOutcome.done.injEq]
      exact ⟨trivial, by omega, by omega⟩
    · have hne : ¬(mid = 0 ∨ rem = 0) := h0
      push_neg at h0
      obtain ⟨fs, hfs⟩ := ih mid rem (by omega)
      refine ⟨ids :: fs, ?_⟩
      simp only [runChunksF, hsplit]
      rw [if_neg hne, hfs]
      simp only [RunOutcome.done.injEq]
      exact ⟨trivial, by omega, by omega⟩

/-- Helper: `runChunks` with no throwing entry, stated at the fuel the model
always supplies.  This is the arithmetic `onJobEnd` uses. -/
theorem runChunks_noFail_spec (m r : Nat) :
    ∃ fs, runChunks noFail m r = .done fs (m - min m r) (min m r) :=
  runChunksF_noFail_done (m + 1) m r (by omega)

/-- C8: if the `#chat` scroll container cannot be located at job start, the
job aborts before any insertion: the result is exactly the original host
state (no entry inserted, `cursor` untouched, no affordance removal), with
the `finally` block having restored `auto_scroll_chat_to_bottom`
(`overflow-anchor` was never modified on this path).  And on every path on
which the job ends — normal completion or this abort — both the suppressed
auto-scroll setting and the container's `overflow-anchor` are restored to
their prior values. -/
theorem c8_abort_restore (bad : Nat → Bool) (hs : HostState) (b : Nat) :
    (hs.containerFound = false →
      loadMoreChunkedJob bad hs b = ⟨hs, [], true, false⟩)
    ∧ ((loadMoreChunkedJob bad hs b).ended = true →
        (loadMoreChunkedJob bad hs b).final.autoScroll = hs.autoScroll
        ∧ (loadMoreChunkedJob bad hs b).final.overflowAnchor = hs.overflowAnchor) := by
  obtain ⟨cf, oa, asc, cur, sm⟩ := hs
  constructor
  · intro hc
    subst hc
    simp [loadMoreChunkedJob]
  · intro hend
    by_cases hc : cf = false
    · subst hc
      simp [loadMoreChunkedJob]
    · have hc' : cf = true := by cases cf <;> simp_all
      subst hc'
      rcases ho : runChunks bad cur (batchEff b) with ⟨fs, fin, n⟩ | ⟨fs, sIds, fid⟩ | fs <;>
        simp_all [loadMoreChunkedJob, ho]

/-- C8 witness: a missing container at `cursor = 5` aborts to the original
state; with the container present the job completes and both settings are
restored. -/
theorem c8_abort_restore_witness :
    loadMoreChunkedJob noFail ⟨false, "auto", true, 5, true⟩ 20
      = ⟨⟨false, "auto", true, 5, true⟩, [], true, false⟩
    ∧ ((loadMoreChunkedJob noFail ⟨true, "auto", true, 5, true⟩ 20).final.autoScroll = true
       ∧ (loadMoreChunkedJob noFail ⟨true, "auto", true, 5, true⟩ 20).final.overflowAnchor
           = "auto") :=
  ⟨(c8_abort_restore noFail ⟨false, "auto", true, 5, true⟩ 20).1 rfl,
   (c8_abort_restore noFail ⟨true, "auto", true, 5, true⟩ 20).2 (by decide)⟩

/-! ### Trigger-gate lemmas -/

/-- Helper: passing the busy-guard preserves the gate invariant. -/
theorem gateInv_startJob (s : GateState) (h : GateInv s) (hb : s.isLoadingMore = false)
    (hsm : s.showMore = true) : GateInv (startJob s) := by
  obtain ⟨i1, i2, i3, i4, i5, i6⟩ := h
  have hr : s.running = 0 := by
    have hne : s.running ≠ 1 := by
      intro hh
      have hbt := i2.mpr hh
      rw [hb] at hbt
      exact Bool.noConfusion hbt
    omega
  refine ⟨by simp [startJob, hr], by simp [startJob, hr], ?_, ?_, ?_, ?_⟩
  · simpa [startJob] using i3
  · simp [startJob, hsm]
  · simpa [startJob] using i5
  · simpa [startJob] using i6

/-- Helper: `loadMoreChunked`'s guarded entry preserves the gate
invariant whenever the affordance is present. -/
theorem gateInv_enter (s : GateState) (h : GateInv s) (hsm : s.showMore = true) :
    GateInv (loadMoreChunkedEnter s) := by
  unfold loadMoreChunkedEnter
  split_ifs with hb
  · exact h
  · exact gateInv_startJob s h (by simpa using hb) hsm

/-- Helper: `canTrigger` either rejects without touching the state, or
accepts — which requires the job to be free, the affordance present, the
container at the top and the cooldown elapsed — and stamps the timestamp. -/
theorem canTrigger_spec (s : GateState) (now st : Nat) :
    canTrigger s now st = (s, false)
    ∨ (canTrigger s now st = ({ s with lastAutoLoadTs := now }, true)
        ∧ s.isLoadingMore = false ∧ s.showMore = true ∧ st = 0
        ∧ cooldownBlocked s now = false) := by
  unfold canTrigger
  split_ifs with h1 h2 h3 h4
  · exact Or.inl rfl
  · exact Or.inl rfl
  · exact Or.inl rfl
  · exact Or.inl rfl
  · right
    refine ⟨rfl, by simpa using h1, by simpa using h2, by omega, by simpa using h4⟩

/-- Helper: every handler preserves the gate invariant. -/
theorem gateStep_inv (s : GateState) (e : GateEvent) (h : GateInv s) :
    GateInv (gateStep s e) := by
  cases e with
  | explicitClick t =>
    simp only [gateStep, onExplicit]
    split_ifs with hsm
    · exact gateInv_enter s h hsm
    · exact h
  | scrollProx now st =>
    simp only [gateStep, maybeTrigger]
    split_ifs with h1 h2 h3 h4 h5
    · exact h
    · exact h
    · exact h
    · exact h
    · exact h
    · refine gateInv_enter _ ?_ ?_
      · obtain ⟨i1, i2, i3, i4, i5, i6⟩ := h
        exact ⟨i1, i2, i3, i4, i5, i6⟩
      · simpa using h3
  | wheelUp now st d =>
    simp only [gateStep, onWheel]
    by_cases hd : (0 : Int) ≤ d
    · rw [if_pos hd]
      exact h
    · rw [if_neg hd]
      rcases canTrigger_spec s now st with hc | ⟨hc, hb, hsm, _, _⟩ <;> rw [hc]
      · exact h
      · show GateInv (loadMoreChunkedEnter { s with lastAutoLoadTs := now })
        refine gateInv_enter _ ?_ hsm
        obtain ⟨i1, i2, i3, i4, i5, i6⟩ := h
        exact ⟨i1, i2, i3, i4, i5, i6⟩
  | touchStart y =>
    obtain ⟨i1, i2, i3, i4, i5, i6⟩ := h
    exact ⟨i1, i2, i3, i4, i5, i6⟩
  | touchMove now st y =>
    rcases hts : s.touchStartY with _ | y0
    · simpa [gateStep, onTouchMove, hts] using h
    · simp only [gateStep, onTouchMove, hts]
      by_cases hdy : y - y0 < 18
      · rw [if_pos hdy]
        exact h
      · rw [if_neg hdy]
        rcases canTrigger_spec s now st with hc | ⟨hc, hb, hsm, _, _⟩ <;> rw [hc]
        · exact h
        · show GateInv
            (loadMoreChunkedEnter { s with lastAutoLoadTs := now, touchStartY := some y })
          refine gateInv_enter _ ?_ hsm
          obtain ⟨i1, i2, i3, i4, i5, i6⟩ := h
          exact ⟨i1, i2, i3, i4, i5, i6⟩
  | touchEnd =>
    obtain ⟨i1, i2, i3, i4, i5, i6⟩ := h
    exact ⟨i1, i2, i3, i4, i5, i6⟩
  | jobEnd =>
    simp only [gateStep, onJobEnd]
    split_ifs with hb hz
    · obtain ⟨i1, i2, i3, i4, i5, i6⟩ := h
      have hsm := i4 hb
      have hrm := i3 hsm
      have hr := i2.mp hb
      refine ⟨?_, ?_, ?_, ?_, ?_, ?_⟩ <;> simp_all
    · obtain ⟨i1, i2, i3, i4, i5, i6⟩ := h
      have hsm := i4 hb
      have hrm := i3 hsm
      have hr := i2.mp hb
      refine ⟨?_, ?_, ?_, ?_, ?_, ?_⟩ <;> simp_all
      omega
    · exact h

/-- Helper: a well-formed initial state satisfies the invariant. -/
theorem wfInit_gateInv (s : GateState) (h : WfInit s) : GateInv s := by
  obtain ⟨h1, h2, h3, h4⟩ := h
  refine ⟨by omega, ?_, fun _ => h3, ?_, ?_, by omega⟩
  · rw [h1, h2]
    simp
  · intro hb
    rw [h1] at hb
    exact Bool.noConfusion hb
  · intro hsm
    rw [h4] at hsm
    exact of_decide_eq_true hsm

/-- Helper: the invariant holds along every event sequence. -/
theorem gateInv_runGate (s : GateState) (evs : List GateEvent) (h : GateInv s) :
    GateInv (runGate s evs) := by
  induction evs generalizing s with
  | nil => exact h
  | cons e es ih => exact ih _ (gateStep_inv s e h)

/-- Helper: while a job is running, every trigger attempt — from any of the
three sources — leaves the whole gate state unchanged. -/
theorem gateStep_busy_noop (s : GateState) (e : GateEvent) (hb : s.isLoadingMore = true)
    (ht : IsTrigger e) : gateStep s e = s := by
  cases e with
  | explicitClick t => simp [gateStep, onExplicit, loadMoreChunkedEnter, hb]
  | scrollProx now st => simp [gateStep, maybeTrigger, hb]
  | wheelUp now st d => simp [gateStep, onWheel, canTrigger, hb]
  | touchMove now st y =>
    rcases hts : s.touchStartY with _ | y0 <;>
      simp [gateStep, onTouchMove, canTrigger, hb, hts]
  | touchStart y => exact ht.elim
  | touchEnd => exact ht.elim
  | jobEnd => exact ht.elim

/-- Helper: with the job free but the affordance gone, every trigger
attempt is a no-op (the explicit handler has no event target, the others
check `document.getElementById` / `canTrigger`). -/
theorem gateStep_noShowMore_noop (s : GateState) (e : GateEvent)
    (hb : s.isLoadingMore = false) (hsm : s.showMore = false) (ht : IsTrigger e) :
    gateStep s e = s := by
  cases e with
  | explicitClick t => simp [gateStep, onExplicit, hsm]
  | scrollProx now st => simp [gateStep, maybeTrigger, hb, hsm]
  | wheelUp now st d => simp [gateStep, onWheel, canTrigger, hb, hsm]
  | touchMove now st y =>
    rcases hts : s.touchStartY with _ | y0 <;>
      simp [gateStep, onTouchMove, canTrigger, hb, hsm, hts]
  | touchStart y => exact ht.elim
  | touchEnd => exact ht.elim
  | jobEnd => exact ht.elim

/-- Helper: job completion never touches the trigger timestamp. -/
theorem onJobEnd_ts (s : GateState) : (onJobEnd s).lastAutoLoadTs = s.lastAutoLoadTs := by
  simp only [onJobEnd]
  split_ifs <;> rfl

/-- Helper: job completion never touches the cooldown setting. -/
theorem onJobEnd_cooldown (s : GateState) :
    (onJobEnd s).autoLoadCooldownMs = s.autoLoadCooldownMs := by
  simp only [onJobEnd]
  split_ifs <;> rfl

/-- Helper: job completion starts no job. -/
theorem onJobEnd_starts (s : GateState) : (onJobEnd s).starts = s.starts := by
  simp only [onJobEnd]
  split_ifs <;> rfl

/-- Helper: an active cooldown makes the scroll-proximity source a no-op. -/
theorem maybeTrigger_blocked (s : GateState) (now st : Nat)
    (hcb : cooldownBlocked s now = true) : maybeTrigger s now st = s := by
  unfold maybeTrigger
  split_ifs <;> simp_all

/-- Helper: an active cooldown makes the wheel source a no-op. -/
theorem onWheel_blocked (s : GateState) (now st : Nat) (d : Int)
    (hcb : cooldownBlocked s now = true) : onWheel s now st d = s := by
  unfold onWheel
  by_cases hd : (0 : Int) ≤ d
  · rw [if_pos hd]
  · rw [if_neg hd]
    rcases canTrigger_spec s now st with hc | ⟨hc, _, _, _, hcb'⟩
    · simp [hc]
    · rw [hcb'] at hcb
      exact Bool.noConfusion hcb

/-- Helper: a scroll-proximity acceptance (observable as a job start)
happens exactly on the code path that stamps `_lastAutoLoadTs = now` and
enters `loadMoreChunked` with the job free. -/
theorem maybeTrigger_accept (s : GateState) (now st : Nat)
    (hacc : (maybeTrigger s now st).starts = s.starts + 1) :
    maybeTrigger s now st = startJob { s with lastAutoLoadTs := now } := by
  unfold maybeTrigger at hacc ⊢
  split_ifs at hacc ⊢ with h1 h2 h3 h4 h5
  any_goals omega
  show loadMoreChunkedEnter { s with lastAutoLoadTs := now } = _
  unfold loadMoreChunkedEnter
  split_ifs with hb
  · exact absurd (by simpa using hb) h2
  · rfl

/-- Helper: a wheel acceptance stamps `_lastAutoLoadTs = now`. -/
theorem onWheel_accept (s : GateState) (now st : Nat) (d : Int)
    (hacc : (onWheel s now st d).starts = s.starts + 1) :
    (onWheel s now st d).lastAutoLoadTs = now := by
  unfold onWheel at hacc ⊢
  by_cases hd : (0 : Int) ≤ d
  · rw [if_pos hd] at hacc
    omega
  · rw [if_neg hd] at hacc ⊢
    rcases canTrigger_spec s now st with hc | ⟨hc, hb, _, _, _⟩ <;> rw [hc] at hacc ⊢
    · exact absurd hacc (by simp)
    · show (loadMoreChunkedEnter { s with lastAutoLoadTs := now }).lastAutoLoadTs = now
      unfold loadMoreChunkedEnter
      split_ifs with hb'
      · exact absurd (by simpa using hb') (by simp [hb])
      · rfl

/-- Helper: unfolding equation of the touch handler with no recorded start. -/
theorem onTouchMove_eq_none (s : GateState) (now st : Nat) (y : Int)
    (hts : s.touchStartY = none) : onTouchMove s now st y = s := by
  unfold onTouchMove
  rw [hts]

/-- Helper: unfolding equation of the touch handler with a recorded start. -/
theorem onTouchMove_eq_some (s : GateState) (now st : Nat) (y y0 : Int)
    (hts : s.touchStartY = some y0) :
    onTouchMove s now st y =
      (if y - y0 < 18 then s
       else
         let c := canTrigger s now st
         if c.2 = true then loadMoreChunkedEnter { c.1 with touchStartY := some y }
         else c.1) := by
  unfold onTouchMove
  rw [hts]

/-- Helper: a touch-pull acceptance stamps `_lastAutoLoadTs = now`. -/
theorem onTouchMove_accept (s : GateState) (now st : Nat) (y : Int)
    (hacc : (onTouchMove s now st y).starts = s.starts + 1) :
    (onTouchMove s now st y).lastAutoLoadTs = now := by
  rcases hts : s.touchStartY with _ | y0
  · rw [onTouchMove_eq_none s now st y hts] at hacc
    omega
  · rw [onTouchMove_eq_some s now st y y0 hts] at hacc ⊢
    by_cases hdy : y - y0 < 18
    · rw [if_pos hdy] at hacc
      omega
    · rw [if_neg hdy] at hacc ⊢
      rcases canTrigger_spec s now st with hc | ⟨hc, hb, _, _, _⟩
      · simp [hc] at hacc
      · simp only [hc] at hacc ⊢
        show (loadMoreChunkedEnter
            { s with lastAutoLoadTs := now, touchStartY := some y }).lastAutoLoadTs = now
        unfold loadMoreChunkedEnter
        split_ifs with hb'
        · exact absurd (by simpa using hb') (by simp [hb])
        · rfl

/-- Helper: no handler can take the cursor to 0 without having executed the
affordance-removal statement. -/
theorem gateStep_zero_removals (s : GateState) (e : GateEvent)
    (h0 : s.cursor = 0 → 1 ≤ s.removals) :
    (gateStep s e).cursor = 0 → 1 ≤ (gateStep s e).removals := by
  cases e with
  | explicitClick t =>
    simp only [gateStep, onExplicit, loadMoreChunkedEnter, startJob]
    split_ifs <;> simpa using h0
  | scrollProx now st =>
    simp only [gateStep, maybeTrigger, loadMoreChunkedEnter, startJob]
    split_ifs <;> simpa using h0
  | wheelUp now st d =>
    simp only [gateStep, onWheel]
    by_cases hd : (0 : Int) ≤ d
    · rw [if_pos hd]
      exact h0
    · rw [if_neg hd]
      rcases canTrigger_spec s now st with hc | ⟨hc, _, _, _, _⟩ <;> rw [hc]
      · exact h0
      · show (loadMoreChunkedEnter { s with lastAutoLoadTs := now }).cursor = 0 → _
        simp only [loadMoreChunkedEnter, startJob]
        split_ifs <;> simpa using h0
  | touchStart y => exact h0
  | touchMove now st y =>
    simp only [gateStep]
    rcases hts : s.touchStartY with _ | y0
    · rw [onTouchMove_eq_none s now st y hts]
      exact h0
    · rw [onTouchMove_eq_some s now st y y0 hts]
      by_cases hdy : y - y0 < 18
      · rw [if_pos hdy]
        exact h0
      · rw [if_neg hdy]
        rcases canTrigger_spec s now st with hc | ⟨hc, _, _, _, _⟩
        · simp only [hc]
          simpa using h0
        · simp only [hc]
          show (loadMoreChunkedEnter
              { s with lastAutoLoadTs := now, touchStartY := some y }).cursor = 0 →
            1 ≤ (loadMoreChunkedEnter
              { s with lastAutoLoadTs := now, touchStartY := some y }).removals
          simp only [loadMoreChunkedEnter, startJob]
          split_ifs <;> simpa using h0
  | touchEnd => exact h0
  | jobEnd =>
    simp only [gateStep, onJobEnd]
    split_ifs with hb hz
    · intro _
      simp
    · intro hc
      simp only at hc
      omega
    · exact h0

/-- Helper: along every event sequence, reaching cursor 0 implies the
removal statement has executed. -/
theorem runGate_zero_removals (s : GateState) (evs : List GateEvent)
    (h0 : s.cursor = 0 → 1 ≤ s.removals) :
    (runGate s evs).cursor = 0 → 1 ≤ (runGate s evs).removals := by
  induction evs generalizing s with
  | nil => exact h0
  | cons e es ih => exact ih _ (gateStep_zero_removals s e h0)

/-- C1: single-flight mutual exclusion.  From any well-formed initial state
and along every sequence of handler runs: (1) at most one `loadMoreChunked`
invocation is ever past the busy-guard; (2) any trigger attempt — explicit
click, scroll proximity, wheel or touch boundary gesture — arriving while a
job is running leaves the gate state completely unchanged (no second job,
no timestamp update); (3) when the running job ends, the busy flag is
cleared; and (4) once the flag is cleared, a trigger whose preconditions
hold (here: the explicit click, needing only the affordance) starts a new
job. -/
theorem c1_single_flight (s0 : GateState) (evs : List GateEvent) (h : WfInit s0) :
    (runGate s0 evs).running ≤ 1
    ∧ (∀ e, IsTrigger e → (runGate s0 evs).isLoadingMore = true →
        gateStep (runGate s0 evs) e = runGate s0 evs)
    ∧ ((runGate s0 evs).isLoadingMore = true →
        (gateStep (runGate s0 evs) GateEvent.jobEnd).isLoadingMore = false)
    ∧ (∀ t, (gateStep (runGate s0 evs) GateEvent.jobEnd).isLoadingMore = false →
        (gateStep (runGate s0 evs) GateEvent.jobEnd).showMore = true →
        (gateStep (gateStep (runGate s0 evs) GateEvent.jobEnd)
            (GateEvent.explicitClick t)).starts = (runGate s0 evs).starts + 1
        ∧ (gateStep (gateStep (runGate s0 evs) GateEvent.jobEnd)
            (GateEvent.explicitClick t)).isLoadingMore = true) := by
  have hinv := gateInv_runGate s0 evs (wfInit_gateInv s0 h)
  refine ⟨hinv.1, ?_, ?_, ?_⟩
  · intro e ht hb
    exact gateStep_busy_noop (runGate s0 evs) e hb ht
  · intro hb
    show (onJobEnd (runGate s0 evs)).isLoadingMore = false
    simp only [onJobEnd]
    rw [if_pos hb]
    split_ifs <;> rfl
  · intro t hb hsm
    show (onExplicit (gateStep (runGate s0 evs) GateEvent.jobEnd)).starts
        = (runGate s0 evs).starts + 1
      ∧ (onExplicit (gateStep (runGate s0 evs) GateEvent.jobEnd)).isLoadingMore = true
    unfold onExplicit loadMoreChunkedEnter
    rw [if_pos hsm, if_neg (by simp [hb])]
    refine ⟨?_, rfl⟩
    have hst : (gateStep (runGate s0 evs) GateEvent.jobEnd).starts
        = (runGate s0 evs).starts := onJobEnd_starts (runGate s0 evs)
    show (gateStep (runGate s0 evs) GateEvent.jobEnd).starts + 1
        = (runGate s0 evs).starts + 1
    rw [hst]

/-- C1 witness. -/
theorem c1_single_flight_witness :
    (runGate ⟨false, 0, true, 400, 250, 20, 100, true, none, 0, 0, 0⟩
      [GateEvent.explicitClick 5, GateEvent.jobEnd]).running ≤ 1 :=
  (c1_single_flight ⟨false, 0, true, 400, 250, 20, 100, true, none, 0, 0, 0⟩
    [GateEvent.explicitClick 5, GateEvent.jobEnd] ⟨rfl, rfl, rfl, rfl⟩).1

/-- C5: idempotent exhaustion.  From any well-formed initial state and along
every event sequence: the `$('#show_more_messages').remove()` statement
executes at most once over the whole lifetime; if the conversation started
with older entries and the cursor has reached 0, the removal has executed
exactly once; and once the cursor is 0, every further trigger attempt from
any source leaves the state unchanged (in particular it inserts nothing). -/
theorem c5_idempotent_exhaustion (s0 : GateState) (evs : List GateEvent) (h : WfInit s0) :
    (runGate s0 evs).removals ≤ 1
    ∧ (0 < s0.cursor → (runGate s0 evs).cursor = 0 → (runGate s0 evs).removals = 1)
    ∧ ((runGate s0 evs).cursor = 0 →
        ∀ e, IsTrigger e → gateStep (runGate s0 evs) e = runGate s0 evs) := by
  obtain ⟨i1, i2, i3, i4, i5, i6⟩ := gateInv_runGate s0 evs (wfInit_gateInv s0 h)
  refine ⟨i6, ?_, ?_⟩
  · intro hc0 hcz
    have hge := runGate_zero_removals s0 evs (fun hz => absurd hz (by omega)) hcz
    omega
  · intro hcz e ht
    have hb : (runGate s0 evs).isLoadingMore = false := by
      cases hbv : (runGate s0 evs).isLoadingMore
      · rfl
      · have := i5 (i4 hbv)
        omega
    have hsm : (runGate s0 evs).showMore = false := by
      cases hsv : (runGate s0 evs).showMore
      · rfl
      · have := i5 hsv
        omega
    exact gateStep_noShowMore_noop (runGate s0 evs) e hb hsm ht

/-- C5 witness: a 2-entry remainder is exhausted by one explicit trigger;
afterwards the removal count is (exactly) 1 ≤ 1. -/
theorem c5_idempotent_exhaustion_witness :
    (runGate ⟨false, 0, true, 400, 250, 20, 2, true, none, 0, 0, 0⟩
      [GateEvent.explicitClick 7, GateEvent.jobEnd, GateEvent.scrollProx 9000 0]).removals
      ≤ 1 :=
  (c5_idempotent_exhaustion ⟨false, 0, true, 400, 250, 20, 2, true, none, 0, 0, 0⟩
    [GateEvent.explicitClick 7, GateEvent.jobEnd, GateEvent.scrollProx 9000 0]
    ⟨rfl, rfl, rfl, rfl⟩).1

/-- C6 counterexample: two trigger attempts 100 ms apart with
`cooldownMs = 250`, the second being the (non-explicit) scroll-proximity
source — yet two jobs start, not one.  The first trigger is the explicit
click, which starts a job without updating `_lastAutoLoadTs` (still 0), so
after that job completes, the scroll trigger at `now = 1100` passes the
cooldown check `1100 - 0 ≥ 250` and starts a second job. -/
theorem c6_cooldown_counterexample :
    (runGate ⟨false, 0, true, 400, 250, 20, 50, true, none, 0, 0, 0⟩
      [GateEvent.explicitClick 1000, GateEvent.jobEnd, GateEvent.scrollProx 1100 0]).starts
      = 2
    ∧ 1100 - 1000 < 250 := by
  decide

/-- Helper: an active cooldown makes the touch source a no-op. -/
theorem onTouchMove_blocked (s : GateState) (now st : Nat) (y : Int)
    (hcb : cooldownBlocked s now = true) : onTouchMove s now st y = s := by
  rcases hts : s.touchStartY with _ | y0
  · exact onTouchMove_eq_none s now st y hts
  · rw [onTouchMove_eq_some s now st y y0 hts]
    by_cases hdy : y - y0 < 18
    · rw [if_pos hdy]
    · rw [if_neg hdy]
      rcases canTrigger_spec s now st with hc | ⟨hc, _, _, _, hcb'⟩
      · simp [hc]
      · rw [hcb'] at hcb
        exact Bool.noConfusion hcb

/-- Helper: no handler ever writes the cooldown setting. -/
theorem gateStep_cooldown (s : GateState) (e : GateEvent) :
    (gateStep s e).autoLoadCooldownMs = s.autoLoadCooldownMs := by
  cases e with
  | explicitClick t =>
    show (onExplicit s).autoLoadCooldownMs = s.autoLoadCooldownMs
    unfold onExplicit loadMoreChunkedEnter startJob
    split_ifs <;> rfl
  | scrollProx now st =>
    show (maybeTrigger s now st).autoLoadCooldownMs = s.autoLoadCooldownMs
    unfold maybeTrigger loadMoreChunkedEnter startJob
    split_ifs <;> rfl
  | wheelUp now st d =>
    show (onWheel s now st d).autoLoadCooldownMs = s.autoLoadCooldownMs
    unfold onWheel
    by_cases hd : (0 : Int) ≤ d
    · rw [if_pos hd]
    · rw [if_neg hd]
      rcases canTrigger_spec s now st with hc | ⟨hc, _, _, _, _⟩
      · simp [hc]
      · simp only [hc]
        show (loadMoreChunkedEnter
            { s with lastAutoLoadTs := now }).autoLoadCooldownMs = s.autoLoadCooldownMs
        unfold loadMoreChunkedEnter startJob
        split_ifs <;> rfl
  | touchStart y => rfl
  | touchMove now st y =>
    show (onTouchMove s now st y).autoLoadCooldownMs = s.autoLoadCooldownMs
    rcases hts : s.touchStartY with _ | y0
    · rw [onTouchMove_eq_none s now st y hts]
    · rw [onTouchMove_eq_some s now st y y0 hts]
      by_cases hdy : y - y0 < 18
      · rw [if_pos hdy]
      · rw [if_neg hdy]
        rcases canTrigger_spec s now st with hc | ⟨hc, _, _, _, _⟩
        · simp [hc]
        · simp only [hc]
          show (loadMoreChunkedEnter
              { s with lastAutoLoadTs := now,
                       touchStartY := some y }).autoLoadCooldownMs = s.autoLoadCooldownMs
          unfold loadMoreChunkedEnter startJob
          split_ifs <;> rfl
  | touchEnd => rfl
  | jobEnd => exact onJobEnd_cooldown s

/-- C6 (amended): when the first accepted trigger is itself non-explicit —
any of scroll proximity, wheel gesture or touch pull — the cooldown does
gate the pair: the acceptance stamps `_lastAutoLoadTs` with its `Date.now()`
at that moment; job completion does not touch the timestamp; and a second
non-explicit trigger of any of the three sources fired less than
`cooldownMs` later is a complete no-op even though the first job has
already completed — so exactly one job starts from the pair. -/
theorem c6_cooldown_amended (s : GateState) (e1 e2 : GateEvent)
    (h1 : NonExplicitTrigger e1) (h2 : NonExplicitTrigger e2)
    (hacc : (gateStep s e1).starts = s.starts + 1)
    (hcd : eventTime e2 - eventTime e1 < s.autoLoadCooldownMs) :
    (gateStep s e1).lastAutoLoadTs = eventTime e1
    ∧ (gateStep (gateStep s e1) GateEvent.jobEnd).lastAutoLoadTs = eventTime e1
    ∧ gateStep (gateStep (gateStep s e1) GateEvent.jobEnd) e2
        = gateStep (gateStep s e1) GateEvent.jobEnd
    ∧ (gateStep (gateStep (gateStep s e1) GateEvent.jobEnd) e2).starts = s.starts + 1 := by
  have hts1 : (gateStep s e1).lastAutoLoadTs = eventTime e1 := by
    cases e1 with
    | scrollProx now st =>
      show (maybeTrigger s now st).lastAutoLoadTs = now
      rw [maybeTrigger_accept s now st hacc]
      rfl
    | wheelUp now st d => exact onWheel_accept s now st d hacc
    | touchMove now st y => exact onTouchMove_accept s now st y hacc
    | explicitClick t => exact h1.elim
    | touchStart y => exact h1.elim
    | touchEnd => exact h1.elim
    | jobEnd => exact h1.elim
  have hts2 : (gateStep (gateStep s e1) GateEvent.jobEnd).lastAutoLoadTs = eventTime e1 := by
    have hjt : (gateStep (gateStep s e1) GateEvent.jobEnd).lastAutoLoadTs
        = (gateStep s e1).lastAutoLoadTs := onJobEnd_ts (gateStep s e1)
    rw [hjt, hts1]
  have hcd2 : (gateStep (gateStep s e1) GateEvent.jobEnd).autoLoadCooldownMs
      = s.autoLoadCooldownMs := by
    have hj : (gateStep (gateStep s e1) GateEvent.jobEnd).autoLoadCooldownMs
        = (gateStep s e1).autoLoadCooldownMs := onJobEnd_cooldown (gateStep s e1)
    rw [hj, gateStep_cooldown s e1]
  have hblocked : cooldownBlocked (gateStep (gateStep s e1) GateEvent.jobEnd)
      (eventTime e2) = true := by
    unfold cooldownBlocked
    rw [hts2, hcd2]
    simp only [Bool.and_eq_true, decide_eq_true_eq]
    omega
  have hnoop : gateStep (gateStep (gateStep s e1) GateEvent.jobEnd) e2
      = gateStep (gateStep s e1) GateEvent.jobEnd := by
    cases e2 with
    | scrollProx t2 st2 => exact maybeTrigger_blocked _ t2 st2 hblocked
    | wheelUp t2 st2 d2 => exact onWheel_blocked _ t2 st2 d2 hblocked
    | touchMove t2 st2 y2 => exact onTouchMove_blocked _ t2 st2 y2 hblocked
    | explicitClick t => exact h2.elim
    | touchStart y => exact h2.elim
    | touchEnd => exact h2.elim
    | jobEnd => exact h2.elim
  refine ⟨hts1, hts2, hnoop, ?_⟩
  rw [hnoop]
  have hst : (gateStep (gateStep s e1) GateEvent.jobEnd).starts
      = (gateStep s e1).starts := onJobEnd_starts (gateStep s e1)
  rw [hst, hacc]

/-- C6 witness: a wheel-boundary trigger accepted at `now = 1000` stamps
the timestamp, so that a touch-pull (or any non-explicit) trigger at
`now = 1100` under a 250 ms cooldown is blocked. -/
theorem c6_cooldown_amended_witness :
    (gateStep ⟨false, 0, true, 400, 250, 20, 90, true, none, 0, 0, 0⟩
      (GateEvent.wheelUp 1000 0 (-1))).lastAutoLoadTs = 1000 :=
  (c6_cooldown_amended ⟨false, 0, true, 400, 250, 20, 90, true, none, 0, 0, 0⟩
    (GateEvent.wheelUp 1000 0 (-1)) (GateEvent.touchMove 1100 0 20)
    trivial trivial (by decide) (by decide)).1

/-- C7 counterexample: the explicit-control trigger (the delegated
`#show_more_messages` click handler) is accepted and starts a job at
`now = 2000` but leaves `_lastAutoLoadTs` at 0; consequently a
scroll-proximity trigger only 100 ms later (`cooldownMs = 300`) is *not*
blocked — a second job starts, contradicting the claim. -/
theorem c7_explicit_ts_counterexample :
    (gateStep ⟨false, 0, true, 400, 300, 20, 60, true, none, 0, 0, 0⟩
      (GateEvent.explicitClick 2000)).starts = 1
    ∧ (gateStep ⟨false, 0, true, 400, 300, 20, 60, true, none, 0, 0, 0⟩
        (GateEvent.explicitClick 2000)).lastAutoLoadTs = 0
    ∧ (runGate ⟨false, 0, true, 400, 300, 20, 60, true, none, 0, 0, 0⟩
        [GateEvent.explicitClick 2000, GateEvent.jobEnd,
         GateEvent.scrollProx 2100 0]).starts = 2
    ∧ 2100 - 2000 < 300 := by
  decide

/-- C7 (amended): only the non-explicit sources mutate the trigger-gate
timestamp.  An accepted scroll-proximity, wheel or touch trigger stamps
`_lastAutoLoadTs = now`; the explicit-control handler never touches the
timestamp, whether accepted or not — so a non-explicit trigger within
`cooldownMs` of an accepted explicit trigger is not cooldown-blocked (while
the explicit job is still running it is blocked by the busy flag alone:
conjunct 5). -/
theorem c7_trigger_ts_amended (s : GateState) (t now st : Nat) (d y : Int) :
    (gateStep s (GateEvent.explicitClick t)).lastAutoLoadTs = s.lastAutoLoadTs
    ∧ ((gateStep s (GateEvent.scrollProx now st)).starts = s.starts + 1 →
        (gateStep s (GateEvent.scrollProx now st)).lastAutoLoadTs = now)
    ∧ ((gateStep s (GateEvent.wheelUp now st d)).starts = s.starts + 1 →
        (gateStep s (GateEvent.wheelUp now st d)).lastAutoLoadTs = now)
    ∧ ((gateStep s (GateEvent.touchMove now st y)).starts = s.starts + 1 →
        (gateStep s (GateEvent.touchMove now st y)).lastAutoLoadTs = now)
    ∧ (s.isLoadingMore = true → gateStep s (GateEvent.explicitClick t) = s) := by
  refine ⟨?_, ?_, ?_, ?_, ?_⟩
  · show (onExplicit s).lastAutoLoadTs = s.lastAutoLoadTs
    unfold onExplicit loadMoreChunkedEnter startJob
    split_ifs <;> rfl
  · intro hacc
    show (maybeTrigger s now st).lastAutoLoadTs = now
    rw [maybeTrigger_accept s now st hacc]
    rfl
  · intro hacc
    exact onWheel_accept s now st d hacc
  · intro hacc
    exact onTouchMove_accept s now st y hacc
  · intro hb
    exact gateStep_busy_noop s (GateEvent.explicitClick t) hb trivial

/-- C7 witness: at a state with the touch reference recorded at 0, a pull
to y = 20 at the top, a wheel-up and a scroll tick are each accepted at
`now = 9000` and each stamps the timestamp; the explicit click leaves it
unchanged. -/
theorem c7_trigger_ts_amended_witness :
    (gateStep ⟨false, 0, true, 400, 250, 20, 70, true, some 0, 0, 0, 0⟩
      (GateEvent.scrollProx 9000 0)).lastAutoLoadTs = 9000 :=
  (c7_trigger_ts_amended ⟨false, 0, true, 400, 250, 20, 70, true, some 0, 0, 0, 0⟩
    3 9000 0 (-1) 20).2.1 (by decide)

end Cocktail
